import Mathlib

/-!
Verification of the price-action analysis pipeline of fx_bot.py: swing-point
detection, zone clustering and strength scoring, market-state classification,
and notification-cooldown gating. Prices, ratios and times are modelled as
exact rationals; the Python function round(x, n) is modelled as round-half-to-even on
rationals; the mutable module-level alert state is modelled as an explicit
map passed through the functions.
-/

namespace FxBot

/-- The two kinds of swing point / zone (the "type" field of the dicts). -/
inductive SPType where
  | resistance
  | support
deriving DecidableEq, Repr

/-- One OHLC candle (a row of the DataFrame, with its index timestamp). -/
structure Candle where
  timestamp : Int
  open_price : Rat
  high : Rat
  low : Rat
  close : Rat
deriving DecidableEq, Repr

/-- A swing point as built by detect_swing_points: price, timestamp, rounded
wick ratio, type, and the OHLC fields of the source candle. -/
structure SwingPoint where
  price : Rat
  timestamp : Int
  wick_ratio : Rat
  ptype : SPType
  high : Rat
  low : Rat
  open_price : Rat
  close : Rat
deriving DecidableEq, Repr

/-- A zone during the clustering pass: its member points and its type. -/
structure RawZone where
  points : List SwingPoint
  ptype : SPType
deriving DecidableEq, Repr

/-- A finished zone as built by group_price_zones (strength_str is the star
string derived from strength and is not modelled). -/
structure Zone where
  zone_price : Rat
  ptype : SPType
  reaction_count : Nat
  strength : Nat
  avg_wick_ratio : Rat
  reactions : List SwingPoint
deriving DecidableEq, Repr

/-- The five alert kinds keyed in the last_notified map. -/
inductive AlertKind where
  | resistance
  | support
  | range
  | breakout_up
  | breakout_down
deriving DecidableEq, Repr

/-- One entry of the last_notified map: optional last timestamp and price. -/
structure AlertState where
  time : Option Rat
  price : Rat
deriving DecidableEq, Repr

/-! Configuration constants of fx_bot.py, prices in quote-currency units and
times in hours. -/

def COOLDOWN_HOURS : Rat := 1

def THRESHOLD : Rat := 1/10

def ZONE_MERGE_PIPS : Rat := 1/20

def BREAKOUT_MARGIN : Rat := 1/20

def SWING_WINDOW : Nat := 5

/-- The Python rounding of a rational to an integer: nearest, halves to the even integer. -/
def round_half_even (x : Rat) : Int :=
  let f : Int := x.floor
  let r : Rat := x - (f : Rat)
  if r < 1/2 then f
  else if 1/2 < r then f + 1
  else if f % 2 = 0 then f else f + 1

/-- The Python function round(x, ndigits) on exact rationals. -/
def py_round (ndigits : Nat) (x : Rat) : Rat :=
  (round_half_even (x * 10 ^ ndigits) : Rat) / 10 ^ ndigits

/-- The initial last_notified map: no timestamp and price 0.0 per kind. -/
def initial_last_notified : AlertKind → AlertState := fun _ => ⟨none, 0⟩

/-- can_notify of fx_bot.py: true iff the kind has no recorded time or more
than COOLDOWN_HOURS have elapsed since it. The module-level map and
datetime.now() are passed explicitly; current_price is accepted and ignored
as in the source. -/
def can_notify (last_notified : AlertKind → AlertState) (notify_type : AlertKind)
    (current_price : Rat) (now : Rat) : Bool :=
  match (last_notified notify_type).time with
  | none => true
  | some t => decide (COOLDOWN_HOURS < now - t)

/-- update_notify_state of fx_bot.py: record time and price for one kind. -/
def update_notify_state (last_notified : AlertKind → AlertState)
    (notify_type : AlertKind) (current_price : Rat) (now : Rat) :
    AlertKind → AlertState :=
  fun k => if k = notify_type then ⟨some now, current_price⟩ else last_notified k

/-- The gate-then-record pattern of run_analysis_task: if can_notify, the
message is dispatched (true) and the state updated; otherwise nothing. -/
def notify_event (last_notified : AlertKind → AlertState) (notify_type : AlertKind)
    (current_price : Rat) (now : Rat) : (AlertKind → AlertState) × Bool :=
  if can_notify last_notified notify_type current_price now then
    (update_notify_state last_notified notify_type current_price now, true)
  else
    (last_notified, false)

/-! The swing detector (detect_swing_points). -/

/-- Out-of-range row default; detect_swing_points only reads rows in range. -/
def dummy_candle : Candle := ⟨0, 0, 0, 0, 0⟩

/-- df.iloc[i] (with its index timestamp). -/
def candle_at (df : List Candle) (i : Nat) : Candle := df.getD i dummy_candle

/-- The swing-high scan at index i: every j in [i-window, i+window] other
than i has High not strictly greater than High at i. -/
def is_swing_high (df : List Candle) (window i : Nat) : Bool :=
  (List.range' (i - window) (2 * window + 1)).all fun j =>
    j == i || decide ((candle_at df j).high ≤ (candle_at df i).high)

/-- The swing-low scan at index i: every j in [i-window, i+window] other
than i has Low not strictly lower than Low at i. -/
def is_swing_low (df : List Candle) (window i : Nat) : Bool :=
  (List.range' (i - window) (2 * window + 1)).all fun j =>
    j == i || decide ((candle_at df i).low ≤ (candle_at df j).low)

/-- The candle body |close - open| floored at 0.001 against zero division. -/
def body_of (row : Candle) : Rat :=
  let b := |row.close - row.open_price|
  if b < 1/1000 then 1/1000 else b

/-- The resistance point appended for a confirmed swing high. -/
def high_point (row : Candle) : SwingPoint :=
  ⟨row.high, row.timestamp,
   py_round 2 ((row.high - max row.open_price row.close) / body_of row),
   SPType.resistance, row.high, row.low, row.open_price, row.close⟩

/-- The support point appended for a confirmed swing low. -/
def low_point (row : Candle) : SwingPoint :=
  ⟨row.low, row.timestamp,
   py_round 2 ((min row.open_price row.close - row.low) / body_of row),
   SPType.support, row.high, row.low, row.open_price, row.close⟩

/-- The points appended by one iteration of the detection loop at index i:
the high test and the low test run independently, in this order. -/
def swing_points_at (df : List Candle) (window i : Nat) : List SwingPoint :=
  (if is_swing_high df window i then [high_point (candle_at df i)] else []) ++
  (if is_swing_low df window i then [low_point (candle_at df i)] else [])

/-- detect_swing_points of fx_bot.py: empty when the series is empty or
shorter than 2*window+1, else the loop over i from window to
len(df)-window-1 appending the confirmed points. -/
def detect_swing_points (df : List Candle) (window : Nat) : List SwingPoint :=
  if df.isEmpty || df.length < window * 2 + 1 then []
  else
    (List.range' window (df.length - window - window)).foldl
      (fun points i => points ++ swing_points_at df window i) []

/-! The zone aggregator (group_price_zones). -/

/-- Stable insertion into a list ordered by the relation le (a goes before
the first b with le a b, so earlier elements stay before equal ones). -/
def insert_le {α : Type} (le : α → α → Bool) (a : α) : List α → List α
  | [] => [a]
  | b :: bs => if le a b then a :: b :: bs else b :: insert_le le a bs

/-- Stable sort by the relation le, modelling the Python function sorted. -/
def sort_le {α : Type} (le : α → α → Bool) : List α → List α
  | [] => []
  | x :: xs => insert_le le x (sort_le le xs)

/-- sorted(swing_points, key=lambda x: x["price"]): stable, price ascending. -/
def sort_by_price (pts : List SwingPoint) : List SwingPoint :=
  sort_le (fun a b => decide (a.price ≤ b.price)) pts

/-- sorted(pts, key=lambda x: x["timestamp"], reverse=True): stable, newest
first. -/
def sort_by_time_desc (pts : List SwingPoint) : List SwingPoint :=
  sort_le (fun a b => decide (b.timestamp ≤ a.timestamp)) pts

/-- The running mean price of the points of the current zone. -/
def zone_avg_price (pts : List SwingPoint) : Rat :=
  (pts.map (fun p => p.price)).sum / (pts.length : Rat)

/-- One iteration of the clustering pass: merge the point into the current
zone when it is within merge_distance of the running mean of the zone and
has the type of the zone; otherwise close the zone and seed a new one with the point. -/
def group_step (merge_distance : Rat) (acc : List RawZone × RawZone)
    (point : SwingPoint) : List RawZone × RawZone :=
  let zones := acc.1
  let current_zone := acc.2
  let zone_avg := zone_avg_price current_zone.points
  if |point.price - zone_avg| ≤ merge_distance ∧ point.ptype = current_zone.ptype then
    (zones, ⟨current_zone.points ++ [point], current_zone.ptype⟩)
  else
    (zones ++ [current_zone], ⟨[point], point.ptype⟩)

/-- The statistics block of group_price_zones for one closed zone: count,
mean price, mean wick ratio, stars = min(count, 3) plus the wick bonus when
the mean wick ratio is at least 2.0 and stars is below 3, reactions newest
first. -/
def zone_stats (zone : RawZone) : Zone :=
  let pts := zone.points
  let reaction_count := pts.length
  let avg_price := (pts.map (fun p => p.price)).sum / (reaction_count : Rat)
  let avg_wick := (pts.map (fun p => p.wick_ratio)).sum / (reaction_count : Rat)
  let stars := min reaction_count 3
  let stars := if 2 ≤ avg_wick ∧ stars < 3 then stars + 1 else stars
  ⟨py_round 3 avg_price, zone.ptype, reaction_count, stars,
   py_round 2 avg_wick, sort_by_time_desc pts⟩

/-- group_price_zones of fx_bot.py: sort by price, one linear pass seeding
with the first point, then the statistics for every zone (the open zone is
appended last). -/
def group_price_zones (swing_points : List SwingPoint) (merge_distance : Rat) :
    List Zone :=
  match sort_by_price swing_points with
  | [] => []
  | p0 :: rest =>
    let st := rest.foldl (group_step merge_distance) ([], ⟨[p0], p0.ptype⟩)
    (st.1 ++ [st.2]).map zone_stats

/-! The market-state classifier (Step 3 and Step 4 of run_analysis_task):
which alert branch the run takes, given the zones and the current price.
The cooldown gate inside each branch is modelled separately (notify_event). -/

/-- The outcome of the alert decision of run_analysis_task. -/
inductive Classification where
  | breakout_up (zone : Zone)
  | breakout_down (zone : Zone)
  | range (res : Zone) (sup : Zone)
  | approach_resistance (zone : Zone)
  | approach_support (zone : Zone)
  | no_alert
deriving DecidableEq, Repr

/-- Python max(zs, key=zone_price): the first zone of maximal zone_price. -/
def max_by_zone_price (zs : List Zone) : Option Zone :=
  match zs with
  | [] => none
  | z :: rest =>
    some (rest.foldl (fun best cur =>
      if best.zone_price < cur.zone_price then cur else best) z)

/-- Python min(zs, key=zone_price): the first zone of minimal zone_price. -/
def min_by_zone_price (zs : List Zone) : Option Zone :=
  match zs with
  | [] => none
  | z :: rest =>
    some (rest.foldl (fun best cur =>
      if cur.zone_price < best.zone_price then cur else best) z)

/-- res_zones of run_analysis_task: resistance zones with
zone_price >= current_price - THRESHOLD. -/
def res_zones_near (zones : List Zone) (current_price threshold : Rat) : List Zone :=
  zones.filter fun z =>
    z.ptype == SPType.resistance && decide (current_price - threshold ≤ z.zone_price)

/-- sup_zones of run_analysis_task: support zones with
zone_price <= current_price + THRESHOLD. -/
def sup_zones_near (zones : List Zone) (current_price threshold : Rat) : List Zone :=
  zones.filter fun z =>
    z.ptype == SPType.support && decide (z.zone_price ≤ current_price + threshold)

/-- nearby_res: res_zones within THRESHOLD of the current price, sorted by
distance ascending. -/
def nearby_res (zones : List Zone) (current_price threshold : Rat) : List Zone :=
  sort_le (fun a b =>
      decide (|a.zone_price - current_price| ≤ |b.zone_price - current_price|))
    ((res_zones_near zones current_price threshold).filter fun z =>
      decide (|z.zone_price - current_price| ≤ threshold))

/-- nearby_sup: sup_zones within THRESHOLD of the current price, sorted by
distance ascending. -/
def nearby_sup (zones : List Zone) (current_price threshold : Rat) : List Zone :=
  sort_le (fun a b =>
      decide (|a.zone_price - current_price| ≤ |b.zone_price - current_price|))
    ((sup_zones_near zones current_price threshold).filter fun z =>
      decide (|z.zone_price - current_price| ≤ threshold))

/-- all_res of run_analysis_task. -/
def all_res (zones : List Zone) : List Zone :=
  zones.filter fun z => z.ptype == SPType.resistance

/-- all_sup of run_analysis_task. -/
def all_sup (zones : List Zone) : List Zone :=
  zones.filter fun z => z.ptype == SPType.support

/-- broken_res: resistance zones with current_price > zone_price + margin. -/
def broken_res (zones : List Zone) (current_price margin : Rat) : List Zone :=
  (all_res zones).filter fun z => decide (z.zone_price + margin < current_price)

/-- broken_sup: support zones with current_price < zone_price - margin. -/
def broken_sup (zones : List Zone) (current_price margin : Rat) : List Zone :=
  (all_sup zones).filter fun z => decide (current_price < z.zone_price - margin)

/-- The alert decision of run_analysis_task, in the branch order of the source:
breakout up (highest broken resistance), else breakout down (lowest broken
support), else range (nearest nearby resistance and support), else approach
resistance, else approach support, else nothing. -/
def classify_market (zones : List Zone) (current_price threshold margin : Rat) :
    Classification :=
  match max_by_zone_price (broken_res zones current_price margin) with
  | some z => Classification.breakout_up z
  | none =>
    match min_by_zone_price (broken_sup zones current_price margin) with
    | some z => Classification.breakout_down z
    | none =>
      match nearby_res zones current_price threshold,
            nearby_sup zones current_price threshold with
      | r :: _, s :: _ => Classification.range r s
      | r :: _, [] => Classification.approach_resistance r
      | [], s :: _ => Classification.approach_support s
      | [], [] => Classification.no_alert

/-! Concrete inputs used by the witnesses and counterexamples. -/

/-- A default swing point, used only for headD on lists shown nonempty. -/
def dummy_point : SwingPoint := ⟨0, 0, 0, SPType.resistance, 0, 0, 0, 0⟩

/-- The price of the point that seeded a zone (the first of its points). -/
def zone_seed_price (rz : RawZone) : Rat := (rz.points.headD dummy_point).price

/-- A list of swing points in ascending price order. -/
def price_ascending (pts : List SwingPoint) : Prop :=
  List.Pairwise (fun a b : SwingPoint => a.price ≤ b.price) pts

/-- Run of four candles whose second and third share the window-maximal
high 102 (a plateau of two), and whose lows never qualify as swing lows. -/
def plateau_df : List Candle :=
  [⟨0, 100, 101, 100, 1005/10⟩, ⟨1, 100, 102, 1005/10, 101⟩,
   ⟨2, 100, 102, 1005/10, 101⟩, ⟨3, 100, 101, 100, 1005/10⟩]

/-- The wick ratio of a point before rounding, recomputed from the OHLC
fields the point carries: the rejection wick over the floored body, as in
lines 153-154 and 176-177 of fx_bot.py before round(.., 2) is applied. -/
def raw_wick_ratio (p : SwingPoint) : Rat :=
  let body := if |p.close - p.open_price| < 1/1000 then 1/1000 else |p.close - p.open_price|
  match p.ptype with
  | SPType.resistance => (p.high - max p.open_price p.close) / body
  | SPType.support => (min p.open_price p.close - p.low) / body

/-- The middle candle of the C9 run: body 0.2, upper wick 0.399, so the
exact wick ratio is 1.995, strictly below 2. -/
def c9_mid : Candle := ⟨1, 100, 100599/1000, 995/10, 1002/10⟩

/-- A flanking candle for the C9 run: lower high, lower low. -/
def c9_side : Candle := ⟨0, 100, 1004/10, 99, 1001/10⟩

/-- The C9 run: only the middle candle is a swing point. -/
def c9_df : List Candle := [c9_side, c9_mid, c9_side]

/-- The identical candle of the C10 run. -/
def c10_candle : Candle := ⟨7, 100, 1002/10, 999/10, 1001/10⟩

/-- First clustering point for the C2 and C3 examples: price 100.00. -/
def c2_p1 : SwingPoint := ⟨100, 0, 0, SPType.resistance, 0, 0, 0, 0⟩

/-- Second clustering point: price 100.05, within 0.05 of the seed mean. -/
def c2_p2 : SwingPoint := ⟨2001/20, 1, 0, SPType.resistance, 0, 0, 0, 0⟩

/-- Third clustering point: price 100.07, within 0.05 of the drifted mean
100.025 but farther than 0.05 from the seed 100.00. -/
def c2_p3 : SwingPoint := ⟨10007/100, 2, 0, SPType.resistance, 0, 0, 0, 0⟩

/-- The scenario claim C2 asserts to exist: during the clustering pass over
an ascending run, the next point has the type of the current zone and lies
within merge_distance of the price of the original seed of that zone, yet
the step closes the zone and seeds a new one with the point. -/
def drift_scenario : Prop :=
  ∃ (d : Rat) (p0 p : SwingPoint) (ps : List SwingPoint)
    (st : List RawZone × RawZone),
    st = ps.foldl (group_step d) ([], ⟨[p0], p0.ptype⟩) ∧
    price_ascending (p0 :: (ps ++ [p])) ∧
    p.ptype = st.2.ptype ∧
    |p.price - zone_seed_price st.2| ≤ d ∧
    group_step d st p = (st.1 ++ [st.2], ⟨[p], p.ptype⟩)

/-- The resistance zone at 150.00 of the C1 scenarios. -/
def c1_zone : Zone := ⟨150, SPType.resistance, 1, 1, 0, []⟩

/-- A stronger broken resistance zone at 150.20. -/
def c1_high_zone : Zone := ⟨1502/10, SPType.resistance, 2, 2, 0, []⟩

/-- A support zone at 149.00, below everything. -/
def c1_sup_zone : Zone := ⟨149, SPType.support, 1, 1, 0, []⟩

/-! Generic lemmas about the stable insertion sort and list folds. -/

theorem mem_insert_le {α : Type} (le : α → α → Bool) (a x : α) (l : List α) :
    x ∈ insert_le le a l ↔ x = a ∨ x ∈ l := by
  induction l with
  | nil => simp [insert_le]
  | cons b bs ih =>
    by_cases h : le a b = true
    · simp [insert_le, h]
    · simp only [insert_le, h]
      rw [if_neg (by simp [h])]
      simp [ih, or_assoc, or_left_comm]

theorem insert_le_perm {α : Type} (le : α → α → Bool) (a : α) (l : List α) :
    List.Perm (insert_le le a l) (a :: l) := by
  induction l with
  | nil => simp [insert_le]
  | cons b bs ih =>
    by_cases h : le a b = true
    · simp [insert_le, h]
    · simp only [insert_le, h]
      rw [if_neg (by simp [h])]
      exact (ih.cons b).trans (List.Perm.swap a b bs)

theorem sort_le_perm {α : Type} (le : α → α → Bool) (l : List α) :
    List.Perm (sort_le le l) l := by
  induction l with
  | nil => simp [sort_le]
  | cons x xs ih => exact (insert_le_perm le x (sort_le le xs)).trans (ih.cons x)

theorem insert_le_pairwise_price (a : SwingPoint) (l : List SwingPoint)
    (h : List.Pairwise (fun x y : SwingPoint => x.price ≤ y.price) l) :
    List.Pairwise (fun x y : SwingPoint => x.price ≤ y.price)
      (insert_le (fun x y => decide (x.price ≤ y.price)) a l) := by
  induction l with
  | nil => simp [insert_le]
  | cons b bs ih =>
    rcases List.pairwise_cons.mp h with ⟨hb, hbs⟩
    by_cases hab : a.price ≤ b.price
    · rw [insert_le, if_pos (by simp [hab])]
      refine List.pairwise_cons.mpr ⟨?_, h⟩
      intro y hy
      rcases List.mem_cons.mp hy with rfl | hy
      · exact hab
      · exact hab.trans (hb y hy)
    · rw [insert_le, if_neg (by simp [hab])]
      refine List.pairwise_cons.mpr ⟨?_, ih hbs⟩
      intro y hy
      rcases (mem_insert_le _ a y bs).mp hy with rfl | hy
      · exact le_of_not_le hab
      · exact hb y hy

theorem sort_by_price_ascending (pts : List SwingPoint) :
    price_ascending (sort_by_price pts) := by
  unfold price_ascending sort_by_price
  induction pts with
  | nil => simp [sort_le]
  | cons x xs ih => exact insert_le_pairwise_price x _ ih

theorem mem_foldl_append {β : Type} (f : Nat → List β) (l : List Nat)
    (init : List β) (p : β) :
    p ∈ l.foldl (fun acc i => acc ++ f i) init ↔ p ∈ init ∨ ∃ i ∈ l, p ∈ f i := by
  induction l generalizing init with
  | nil => simp
  | cons a as ih =>
    rw [List.foldl_cons, ih (init ++ f a)]
    simp only [List.mem_append, List.mem_cons]
    constructor
    · rintro (⟨h | h⟩ | ⟨i, hi, hp⟩)
      · exact Or.inl h
      · exact Or.inr ⟨a, Or.inl rfl, h⟩
      · exact Or.inr ⟨i, Or.inr hi, hp⟩
    · rintro (h | ⟨i, rfl | hi, hp⟩)
      · exact Or.inl (Or.inl h)
      · exact Or.inl (Or.inr hp)
      · exact Or.inr ⟨i, hi, hp⟩

/-! The notification gatekeeper: claims C5 and C7. -/

/-- C5: can_notify is true iff no timestamp is recorded for the kind or the
elapsed time strictly exceeds the cooldown; hence of two qualifying events
within the cooldown window only the first notifies, and a third event after
the cooldown has elapsed (measured from the recorded first event) notifies
again. -/
theorem c5_cooldown_gate (s0 : AlertKind → AlertState) (k : AlertKind)
    (p1 p2 p3 t1 t2 t3 : Rat) (h0 : (s0 k).time = none)
    (h12 : t2 - t1 ≤ COOLDOWN_HOURS) (h13 : COOLDOWN_HOURS < t3 - t1) :
    (∀ (s : AlertKind → AlertState) (q now : Rat),
      can_notify s k q now = true ↔
        ((s k).time = none ∨ ∃ t, (s k).time = some t ∧ COOLDOWN_HOURS < now - t)) ∧
    (notify_event s0 k p1 t1).2 = true ∧
    (notify_event (notify_event s0 k p1 t1).1 k p2 t2).2 = false ∧
    (notify_event (notify_event (notify_event s0 k p1 t1).1 k p2 t2).1 k p3 t3).2 = true := by
  have hiff : ∀ (s : AlertKind → AlertState) (q now : Rat),
      can_notify s k q now = true ↔
        ((s k).time = none ∨ ∃ t, (s k).time = some t ∧ COOLDOWN_HOURS < now - t) := by
    intro s q now
    unfold can_notify
    cases hst : (s k).time with
    | none => simp
    | some t => simp [hst]
  have hb1 : can_notify s0 k p1 t1 = true := by unfold can_notify; rw [h0]
  have hs1 : (notify_event s0 k p1 t1).1 = update_notify_state s0 k p1 t1 := by
    unfold notify_event; rw [if_pos hb1]
  have hs1k : (update_notify_state s0 k p1 t1) k = ⟨some t1, p1⟩ := by
    unfold update_notify_state; rw [if_pos rfl]
  have hb2 : can_notify (update_notify_state s0 k p1 t1) k p2 t2 = false := by
    unfold can_notify
    rw [hs1k]
    simp only [decide_eq_false_iff_not, not_lt]
    exact h12
  have hs2 : (notify_event (update_notify_state s0 k p1 t1) k p2 t2).1 =
      update_notify_state s0 k p1 t1 := by
    unfold notify_event; rw [hb2]; rfl
  have hb3 : can_notify (update_notify_state s0 k p1 t1) k p3 t3 = true := by
    unfold can_notify
    rw [hs1k]
    simpa using h13
  refine ⟨hiff, ?_, ?_, ?_⟩
  · unfold notify_event; rw [if_pos hb1]
  · rw [hs1]
    simp [notify_event, hb2]
  · rw [hs1, hs2]
    simp [notify_event, hb3]

/-- C5 witness: initial state, events at hours 0, 1 and 2 with a one-hour
cooldown: dispatched, suppressed, dispatched. -/
theorem c5_cooldown_gate_witness :
    (∀ (s : AlertKind → AlertState) (q now : Rat),
      can_notify s AlertKind.resistance q now = true ↔
        ((s AlertKind.resistance).time = none ∨
          ∃ t, (s AlertKind.resistance).time = some t ∧ COOLDOWN_HOURS < now - t)) ∧
    (notify_event initial_last_notified AlertKind.resistance 150 0).2 = true ∧
    (notify_event (notify_event initial_last_notified AlertKind.resistance 150 0).1
      AlertKind.resistance 150 1).2 = false ∧
    (notify_event (notify_event (notify_event initial_last_notified
      AlertKind.resistance 150 0).1 AlertKind.resistance 150 1).1
      AlertKind.resistance 150 2).2 = true :=
  c5_cooldown_gate initial_last_notified AlertKind.resistance 150 150 150 0 1 2
    rfl (by norm_num [COOLDOWN_HOURS]) (by norm_num [COOLDOWN_HOURS])

/-- C7: update_notify_state records the new timestamp and price for the
given kind and leaves the entry of every other kind unchanged. -/
theorem c7_update_frame (s : AlertKind → AlertState) (kind k : AlertKind)
    (price now : Rat) (hne : k ≠ kind) :
    update_notify_state s kind price now kind = ⟨some now, price⟩ ∧
    update_notify_state s kind price now k = s k := by
  unfold update_notify_state
  rw [if_pos rfl, if_neg hne]
  exact ⟨rfl, rfl⟩

/-- C7 witness: updating breakout_up leaves the support entry unchanged. -/
theorem c7_update_frame_witness :
    update_notify_state initial_last_notified AlertKind.breakout_up 150 3
      AlertKind.breakout_up = ⟨some 3, 150⟩ ∧
    update_notify_state initial_last_notified AlertKind.breakout_up 150 3
      AlertKind.support = initial_last_notified AlertKind.support :=
  c7_update_frame initial_last_notified AlertKind.breakout_up AlertKind.support
    150 3 (by decide)

/-! The swing detector: claims C4, C6, C9 and C10. -/

theorem is_swing_high_iff (df : List Candle) (w i : Nat) (h1 : w ≤ i) :
    is_swing_high df w i = true ↔
      ∀ j, i - w ≤ j → j ≤ i + w → j ≠ i →
        (candle_at df j).high ≤ (candle_at df i).high := by
  unfold is_swing_high
  rw [List.all_eq_true]
  constructor
  · intro H j hj1 hj2 hj3
    have hjmem : j ∈ List.range' (i - w) (2 * w + 1) :=
      List.mem_range'_1.mpr ⟨hj1, by omega⟩
    have := H j hjmem
    simp only [Bool.or_eq_true, beq_iff_eq, decide_eq_true_eq] at this
    rcases this with h | h
    · exact absurd h hj3
    · exact h
  · intro H j hjmem
    rw [List.mem_range'_1] at hjmem
    simp only [Bool.or_eq_true, beq_iff_eq, decide_eq_true_eq]
    by_cases hji : j = i
    · exact Or.inl hji
    · exact Or.inr (H j hjmem.1 (by omega) hji)

theorem is_swing_low_iff (df : List Candle) (w i : Nat) (h1 : w ≤ i) :
    is_swing_low df w i = true ↔
      ∀ j, i - w ≤ j → j ≤ i + w → j ≠ i →
        (candle_at df i).low ≤ (candle_at df j).low := by
  unfold is_swing_low
  rw [List.all_eq_true]
  constructor
  · intro H j hj1 hj2 hj3
    have hjmem : j ∈ List.range' (i - w) (2 * w + 1) :=
      List.mem_range'_1.mpr ⟨hj1, by omega⟩
    have := H j hjmem
    simp only [Bool.or_eq_true, beq_iff_eq, decide_eq_true_eq] at this
    rcases this with h | h
    · exact absurd h hj3
    · exact h
  · intro H j hjmem
    rw [List.mem_range'_1] at hjmem
    simp only [Bool.or_eq_true, beq_iff_eq, decide_eq_true_eq]
    by_cases hji : j = i
    · exact Or.inl hji
    · exact Or.inr (H j hjmem.1 (by omega) hji)

theorem swing_points_at_any_res (df : List Candle) (w i : Nat) :
    ((swing_points_at df w i).any fun p => p.ptype == SPType.resistance) =
      is_swing_high df w i := by
  unfold swing_points_at
  cases hh : is_swing_high df w i <;> cases hl : is_swing_low df w i <;>
    simp [high_point, low_point]

theorem swing_points_at_any_sup (df : List Candle) (w i : Nat) :
    ((swing_points_at df w i).any fun p => p.ptype == SPType.support) =
      is_swing_low df w i := by
  unfold swing_points_at
  cases hh : is_swing_high df w i <;> cases hl : is_swing_low df w i <;>
    simp [high_point, low_point]

theorem detect_eq_fold (df : List Candle) (w : Nat) (h : w * 2 + 1 ≤ df.length) :
    detect_swing_points df w =
      (List.range' w (df.length - w - w)).foldl
        (fun points i => points ++ swing_points_at df w i) [] := by
  unfold detect_swing_points
  rw [if_neg]
  simp only [Bool.or_eq_true, not_or, List.isEmpty_iff, decide_eq_true_eq, not_lt]
  constructor
  · intro he
    rw [he] at h
    simp at h
  · omega

theorem detect_mem_structure (df : List Candle) (w : Nat) (p : SwingPoint)
    (hp : p ∈ detect_swing_points df w) :
    ∃ i, w ≤ i ∧ i + w < df.length ∧ p ∈ swing_points_at df w i := by
  by_cases hlen : w * 2 + 1 ≤ df.length
  · rw [detect_eq_fold df w hlen] at hp
    rw [mem_foldl_append] at hp
    rcases hp with hp | ⟨i, hi, hpi⟩
    · simp at hp
    · rw [List.mem_range'_1] at hi
      exact ⟨i, hi.1, by omega, hpi⟩
  · unfold detect_swing_points at hp
    rw [if_pos] at hp
    · simp at hp
    · simp only [Bool.or_eq_true, decide_eq_true_eq]
      right
      omega

/-- C4: an interior candle is reported as a swing high iff no other candle in
the symmetric window has a strictly greater high (ties survive), and
symmetrically for swing lows with strictly lower lows; the reported points of
a run are exactly the per-index points over the interior indices; and on a
two-candle plateau of equal window-maximal highs both candles yield a
swing-high point, with no deduplication. -/
theorem c4_swing_tie_rule (df : List Candle) (w i : Nat) (h1 : w ≤ i)
    (h2 : i + w < df.length) :
    (((swing_points_at df w i).any fun p => p.ptype == SPType.resistance) = true ↔
      ∀ j, i - w ≤ j → j ≤ i + w → j ≠ i →
        (candle_at df j).high ≤ (candle_at df i).high) ∧
    (((swing_points_at df w i).any fun p => p.ptype == SPType.support) = true ↔
      ∀ j, i - w ≤ j → j ≤ i + w → j ≠ i →
        (candle_at df i).low ≤ (candle_at df j).low) ∧
    (w * 2 + 1 ≤ df.length →
      detect_swing_points df w =
        (List.range' w (df.length - w - w)).foldl
          (fun points i => points ++ swing_points_at df w i) []) ∧
    ((detect_swing_points plateau_df 1).countP
      (fun p => p.ptype == SPType.resistance) = 2 ∧
     (detect_swing_points plateau_df 1).length = 2) := by
  refine ⟨?_, ?_, detect_eq_fold df w, ?_, ?_⟩
  · rw [swing_points_at_any_res]
    exact is_swing_high_iff df w i h1
  · rw [swing_points_at_any_sup]
    exact is_swing_low_iff df w i h1
  · norm_num [detect_swing_points, swing_points_at, is_swing_high, is_swing_low,
      candle_at, plateau_df, List.range', high_point, low_point]
  · norm_num [detect_swing_points, swing_points_at, is_swing_high, is_swing_low,
      candle_at, plateau_df, List.range', high_point, low_point]

/-- C4 witness: the rule instantiated at the first plateau candle (index 1
of the four-candle run, window 1). -/
theorem c4_swing_tie_rule_witness :
    (((swing_points_at plateau_df 1 1).any fun p =>
        p.ptype == SPType.resistance) = true ↔
      ∀ j, 1 - 1 ≤ j → j ≤ 1 + 1 → j ≠ 1 →
        (candle_at plateau_df j).high ≤ (candle_at plateau_df 1).high) ∧
    (((swing_points_at plateau_df 1 1).any fun p =>
        p.ptype == SPType.support) = true ↔
      ∀ j, 1 - 1 ≤ j → j ≤ 1 + 1 → j ≠ 1 →
        (candle_at plateau_df 1).low ≤ (candle_at plateau_df j).low) ∧
    (1 * 2 + 1 ≤ plateau_df.length →
      detect_swing_points plateau_df 1 =
        (List.range' 1 (plateau_df.length - 1 - 1)).foldl
          (fun points i => points ++ swing_points_at plateau_df 1 i) []) ∧
    ((detect_swing_points plateau_df 1).countP
      (fun p => p.ptype == SPType.resistance) = 2 ∧
     (detect_swing_points plateau_df 1).length = 2) :=
  c4_swing_tie_rule plateau_df 1 1 (by norm_num) (by norm_num [plateau_df])

/-- C6: a series shorter than 2w+1 yields the empty point list rather than
an error, and every reported point arises from an interior index, at least
w candles away from both ends of the series. -/
theorem c6_short_series (df : List Candle) (w : Nat) :
    (df.length < 2 * w + 1 → detect_swing_points df w = []) ∧
    (∀ p ∈ detect_swing_points df w,
      ∃ i, w ≤ i ∧ i + w < df.length ∧ p ∈ swing_points_at df w i) := by
  constructor
  · intro h
    unfold detect_swing_points
    rw [if_pos]
    simp only [Bool.or_eq_true, decide_eq_true_eq]
    right
    omega
  · exact detect_mem_structure df w

/-- C6 witness: a single candle is shorter than 2*1+1, so no points. -/
theorem c6_short_series_witness :
    detect_swing_points [⟨0, 100, 101, 99, 100⟩] 1 = [] :=
  (c6_short_series [⟨0, 100, 101, 99, 100⟩] 1).1 (by norm_num)

theorem raw_wick_ratio_high_point (row : Candle) :
    raw_wick_ratio (high_point row) =
      (row.high - max row.open_price row.close) / body_of row := by
  simp [raw_wick_ratio, high_point, body_of]

theorem raw_wick_ratio_low_point (row : Candle) :
    raw_wick_ratio (low_point row) =
      (min row.open_price row.close - row.low) / body_of row := by
  simp [raw_wick_ratio, low_point, body_of]

/-- C9: every point reported by the detector carries the wick ratio rounded
to two decimals, so the zone-strength bonus tests rounded values: on the
concrete run whose only point has exact wick ratio 1.995 < 2, the stored
ratio is 2.00, and the resulting single-reaction zone gets the wick bonus,
strength 2 instead of 1. -/
theorem c9_wick_rounding :
    (∀ (df : List Candle) (w : Nat) (p : SwingPoint),
      p ∈ detect_swing_points df w →
        p.wick_ratio = py_round 2 (raw_wick_ratio p)) ∧
    raw_wick_ratio (high_point c9_mid) = 399/200 ∧
    (399 : Rat)/200 < 2 ∧
    detect_swing_points c9_df 1 = [high_point c9_mid] ∧
    (high_point c9_mid).wick_ratio = 2 ∧
    group_price_zones (detect_swing_points c9_df 1) ZONE_MERGE_PIPS =
      [⟨100599/1000, SPType.resistance, 1, 2, 2, [high_point c9_mid]⟩] := by
  refine ⟨?_, ?_, by norm_num, ?_, ?_, ?_⟩
  · intro df w p hp
    obtain ⟨i, _, _, hpi⟩ := detect_mem_structure df w p hp
    unfold swing_points_at at hpi
    rw [List.mem_append] at hpi
    rcases hpi with hpi | hpi
    · have hph : p = high_point (candle_at df i) := by
        rcases hh : is_swing_high df w i with _ | _ <;> rw [hh] at hpi <;> simp at hpi
        exact hpi
      rw [hph, raw_wick_ratio_high_point]
      rfl
    · have hpl : p = low_point (candle_at df i) := by
        rcases hl : is_swing_low df w i with _ | _ <;> rw [hl] at hpi <;> simp at hpi
        exact hpi
      rw [hpl, raw_wick_ratio_low_point]
      rfl
  · rw [raw_wick_ratio_high_point]
    norm_num [c9_mid, body_of, abs_of_nonneg]
  · norm_num [detect_swing_points, swing_points_at, is_swing_high, is_swing_low,
      candle_at, c9_df, c9_mid, c9_side, List.range']
  · norm_num [high_point, c9_mid, py_round, round_half_even, body_of, Rat.floor,
      abs_of_nonneg]
  · norm_num [detect_swing_points, swing_points_at, is_swing_high, is_swing_low,
      candle_at, c9_df, c9_mid, c9_side, List.range', group_price_zones,
      sort_by_price, sort_le, insert_le, zone_stats, sort_by_time_desc,
      high_point, py_round, round_half_even, body_of, Rat.floor, abs_of_nonneg,
      ZONE_MERGE_PIPS]

/-- C9 witness: the rounding law applied to the one point of the C9 run. -/
theorem c9_wick_rounding_witness :
    (high_point c9_mid).wick_ratio = py_round 2 (raw_wick_ratio (high_point c9_mid)) :=
  c9_wick_rounding.1 c9_df 1 (high_point c9_mid)
    (by norm_num [detect_swing_points, swing_points_at, is_swing_high,
      is_swing_low, candle_at, c9_df, c9_mid, c9_side, List.range'])

/-! The zone aggregator: claims C2 and C3. -/

theorem headD_mem {α : Type} (l : List α) (d0 : α) (h : l ≠ []) :
    l.headD d0 ∈ l := by
  cases l with
  | nil => exact absurd rfl h
  | cons a as => exact List.mem_cons_self a as

theorem group_step_eq (d : Rat) (zones : List RawZone) (cur : RawZone)
    (p : SwingPoint) :
    group_step d (zones, cur) p =
      if |p.price - zone_avg_price cur.points| ≤ d ∧ p.ptype = cur.ptype then
        (zones, ⟨cur.points ++ [p], cur.ptype⟩)
      else (zones ++ [cur], ⟨[p], p.ptype⟩) := rfl

theorem group_step_merge (d : Rat) (zones : List RawZone) (cur : RawZone)
    (p : SwingPoint)
    (hc : |p.price - zone_avg_price cur.points| ≤ d ∧ p.ptype = cur.ptype) :
    group_step d (zones, cur) p = (zones, ⟨cur.points ++ [p], cur.ptype⟩) := by
  rw [group_step_eq, if_pos hc]

theorem group_step_close (d : Rat) (zones : List RawZone) (cur : RawZone)
    (p : SwingPoint)
    (hc : ¬(|p.price - zone_avg_price cur.points| ≤ d ∧ p.ptype = cur.ptype)) :
    group_step d (zones, cur) p = (zones ++ [cur], ⟨[p], p.ptype⟩) := by
  rw [group_step_eq, if_neg hc]

theorem group_step_merge_iff (d : Rat) (zones : List RawZone) (cur : RawZone)
    (p : SwingPoint) :
    group_step d (zones, cur) p = (zones, ⟨cur.points ++ [p], cur.ptype⟩) ↔
      (|p.price - zone_avg_price cur.points| ≤ d ∧ p.ptype = cur.ptype) := by
  constructor
  · intro h
    by_contra hc
    rw [group_step_close d zones cur p hc] at h
    have h1 := congrArg Prod.fst h
    simp only at h1
    have h2 := congrArg List.length h1
    rw [List.length_append] at h2
    simp at h2
  · exact group_step_merge d zones cur p

theorem le_zone_avg_price (pts : List SwingPoint) (a : Rat) (hne : pts ≠ [])
    (h : ∀ q ∈ pts, a ≤ q.price) : a ≤ zone_avg_price pts := by
  unfold zone_avg_price
  have hlen : (0 : Rat) < (pts.length : Rat) := by
    exact_mod_cast List.length_pos.mpr hne
  rw [le_div_iff₀ hlen]
  have hmap : ∀ x ∈ pts.map fun p => p.price, a ≤ x := by
    intro x hx
    obtain ⟨q, hq, rfl⟩ := List.mem_map.mp hx
    exact h q hq
  have hb := List.card_nsmul_le_sum (pts.map fun p => p.price) a hmap
  rw [nsmul_eq_mul, List.length_map] at hb
  calc a * (pts.length : Rat) = (pts.length : Rat) * a := mul_comm _ _
    _ ≤ _ := hb

theorem zone_avg_price_le (pts : List SwingPoint) (b : Rat) (hne : pts ≠ [])
    (h : ∀ q ∈ pts, q.price ≤ b) : zone_avg_price pts ≤ b := by
  unfold zone_avg_price
  have hlen : (0 : Rat) < (pts.length : Rat) := by
    exact_mod_cast List.length_pos.mpr hne
  rw [div_le_iff₀ hlen]
  have hmap : ∀ x ∈ pts.map fun p => p.price, x ≤ b := by
    intro x hx
    obtain ⟨q, hq, rfl⟩ := List.mem_map.mp hx
    exact h q hq
  have hb := List.sum_le_card_nsmul (pts.map fun p => p.price) b hmap
  rw [nsmul_eq_mul, List.length_map] at hb
  calc (pts.map fun p => p.price).sum ≤ (pts.length : Rat) * b := hb
    _ = b * (pts.length : Rat) := mul_comm _ _

theorem group_fold_keeps (d : Rat) (ps : List SwingPoint) :
    ∀ (zs : List RawZone) (cz : RawZone),
      cz.points ≠ [] →
      (∀ q ∈ cz.points, (cz.points.headD dummy_point).price ≤ q.price) →
      (∀ q ∈ cz.points, ∀ r ∈ ps, q.price ≤ r.price) →
      List.Pairwise (fun a b : SwingPoint => a.price ≤ b.price) ps →
      (ps.foldl (group_step d) (zs, cz)).2.points ≠ [] ∧
      (∀ q ∈ (ps.foldl (group_step d) (zs, cz)).2.points,
        ((ps.foldl (group_step d) (zs, cz)).2.points.headD dummy_point).price ≤
          q.price) ∧
      (∀ q ∈ (ps.foldl (group_step d) (zs, cz)).2.points,
        q ∈ cz.points ∨ q ∈ ps) := by
  induction ps with
  | nil =>
    intro zs cz h1 h2 h3 hp
    exact ⟨h1, h2, fun q hq => Or.inl hq⟩
  | cons r rest ih =>
    intro zs cz h1 h2 h3 hp
    rw [List.foldl_cons]
    rcases List.pairwise_cons.mp hp with ⟨hr, hrest⟩
    by_cases hc : |r.price - zone_avg_price cz.points| ≤ d ∧ r.ptype = cz.ptype
    · rw [group_step_merge d zs cz r hc]
      have hne : cz.points ++ [r] ≠ [] := by simp
      have hhd : (cz.points ++ [r]).headD dummy_point = cz.points.headD dummy_point := by
        cases hl : cz.points with
        | nil => exact absurd hl h1
        | cons a as => rfl
      obtain ⟨k1, k2, k3⟩ := ih zs ⟨cz.points ++ [r], cz.ptype⟩ hne
        (by
          intro q hq
          rw [hhd]
          rcases List.mem_append.mp hq with hq | hq
          · exact h2 q hq
          · rw [List.mem_singleton] at hq
            subst hq
            exact h3 _ (headD_mem _ _ h1) q (List.mem_cons_self _ _))
        (by
          intro q hq s hs
          rcases List.mem_append.mp hq with hq | hq
          · exact h3 q hq s (List.mem_cons_of_mem _ hs)
          · rw [List.mem_singleton] at hq
            subst hq
            exact hr s hs)
        hrest
      refine ⟨k1, k2, fun q hq => ?_⟩
      rcases k3 q hq with hq2 | hq2
      · rcases List.mem_append.mp hq2 with hq3 | hq3
        · exact Or.inl hq3
        · rw [List.mem_singleton] at hq3
          subst hq3
          exact Or.inr (List.mem_cons_self _ _)
      · exact Or.inr (List.mem_cons_of_mem _ hq2)
    · rw [group_step_close d zs cz r hc]
      obtain ⟨k1, k2, k3⟩ := ih (zs ++ [cz]) ⟨[r], r.ptype⟩ (by simp)
        (by
          intro q hq
          rw [List.mem_singleton] at hq
          subst hq
          exact le_refl _)
        (by
          intro q hq s hs
          rw [List.mem_singleton] at hq
          subst hq
          exact hr s hs)
        hrest
      refine ⟨k1, k2, fun q hq => ?_⟩
      rcases k3 q hq with hq2 | hq2
      · rw [List.mem_singleton] at hq2
        subst hq2
        exact Or.inr (List.mem_cons_self _ _)
      · exact Or.inr (List.mem_cons_of_mem _ hq2)

theorem no_seed_orphan : ¬ drift_scenario := by
  rintro ⟨d, p0, p, ps, st, hst, hasc, htype, hdist, hclose⟩
  rcases List.pairwise_cons.mp hasc with ⟨h0, htail⟩
  rcases List.pairwise_append.mp htail with ⟨hps, _, hcross⟩
  have h2seed : ∀ q ∈ ([p0] : List SwingPoint),
      (([p0] : List SwingPoint).headD dummy_point).price ≤ q.price := by
    intro q hq
    rw [List.mem_singleton] at hq
    subst hq
    exact le_refl _
  have h3seed : ∀ q ∈ ([p0] : List SwingPoint), ∀ r ∈ ps, q.price ≤ r.price := by
    intro q hq r hr
    rw [List.mem_singleton] at hq
    subst hq
    exact h0 r (List.mem_append_left _ hr)
  obtain ⟨hne, hhead, hsub⟩ :=
    group_fold_keeps d ps [] ⟨[p0], p0.ptype⟩ (by simp) h2seed h3seed hps
  rw [← hst] at hne hhead hsub
  have hub : ∀ q ∈ st.2.points, q.price ≤ p.price := by
    intro q hq
    rcases hsub q hq with h | h
    · rw [List.mem_singleton] at h
      subst h
      exact h0 p (List.mem_append_right _ (List.mem_singleton_self p))
    · exact hcross q h p (List.mem_singleton_self p)
  have hseedub : (st.2.points.headD dummy_point).price ≤ p.price :=
    hub _ (headD_mem _ _ hne)
  have hlb : (st.2.points.headD dummy_point).price ≤ zone_avg_price st.2.points :=
    le_zone_avg_price _ _ hne hhead
  have hub2 : zone_avg_price st.2.points ≤ p.price :=
    zone_avg_price_le _ _ hne hub
  have hdist2 : |p.price - zone_avg_price st.2.points| ≤ d := by
    unfold zone_seed_price at hdist
    rw [abs_of_nonneg (by linarith)] at hdist
    rw [abs_of_nonneg (by linarith)]
    linarith
  have hmerge : group_step d (st.1, st.2) p =
      (st.1, ⟨st.2.points ++ [p], st.2.ptype⟩) :=
    group_step_merge d st.1 st.2 p ⟨hdist2, htype⟩
  have heq : (st.1, (⟨st.2.points ++ [p], st.2.ptype⟩ : RawZone)) =
      (st.1 ++ [st.2], (⟨[p], p.ptype⟩ : RawZone)) := hmerge.symm.trans hclose
  have h1 := congrArg Prod.fst heq
  simp only at h1
  have h2 := congrArg List.length h1
  rw [List.length_append] at h2
  simp at h2

/-- C2 (amended): one step of the linear pass adds the point to the current
zone iff its type matches and its price is within merge_distance of the
running mean, and otherwise closes the zone and seeds a new one; the pass
runs over the price-ascending sort, so the running mean never falls below
the seed of the zone: a same-type point within merge_distance of the seed
never starts a new zone; the drift goes the other way, as on the concrete
run where a point farther than merge_distance from the seed still merges,
leaving a single zone. -/
theorem c2_cluster_rule (d : Rat) (zones : List RawZone) (cur : RawZone)
    (p : SwingPoint) :
    (group_step d (zones, cur) p = (zones, ⟨cur.points ++ [p], cur.ptype⟩) ↔
      (|p.price - zone_avg_price cur.points| ≤ d ∧ p.ptype = cur.ptype)) ∧
    (¬(|p.price - zone_avg_price cur.points| ≤ d ∧ p.ptype = cur.ptype) →
      group_step d (zones, cur) p = (zones ++ [cur], ⟨[p], p.ptype⟩)) ∧
    (∀ pts : List SwingPoint, price_ascending (sort_by_price pts)) ∧
    ¬ drift_scenario ∧
    ((group_price_zones [c2_p1, c2_p2, c2_p3] ZONE_MERGE_PIPS).length = 1 ∧
      ZONE_MERGE_PIPS < c2_p3.price - c2_p1.price) := by
  refine ⟨group_step_merge_iff d zones cur p, group_step_close d zones cur p,
    sort_by_price_ascending, no_seed_orphan, ?_, ?_⟩
  · norm_num [group_price_zones, sort_by_price, sort_le, insert_le, group_step,
      zone_avg_price, c2_p1, c2_p2, c2_p3, ZONE_MERGE_PIPS, abs_of_nonneg]
  · norm_num [c2_p1, c2_p3, ZONE_MERGE_PIPS]

/-- C2 witness: with merge_distance 0, the third point fails the running-mean
test against a zone seeded at the first point, so the step closes the zone. -/
theorem c2_cluster_rule_witness :
    group_step 0 ([], ⟨[c2_p1], SPType.resistance⟩) c2_p3 =
      ([⟨[c2_p1], SPType.resistance⟩], ⟨[c2_p3], c2_p3.ptype⟩) :=
  (c2_cluster_rule 0 [] ⟨[c2_p1], SPType.resistance⟩ c2_p3).2.1
    (by norm_num [zone_avg_price, c2_p1, c2_p3, abs_of_nonneg])

/-- C2 counterexample to the claim as stated: the asserted drift scenario is
impossible, because over a price-ascending pass the running mean stays at or
above the seed price, so a same-type point within merge_distance of the seed
is also within merge_distance of the mean and always merges. -/
theorem c2_drift_cex : ¬ drift_scenario := no_seed_orphan

theorem group_fold_nonempty (d : Rat) (ps : List SwingPoint) :
    ∀ (zs : List RawZone) (cz : RawZone),
      (∀ rz ∈ zs, rz.points ≠ []) → cz.points ≠ [] →
      (∀ rz ∈ (ps.foldl (group_step d) (zs, cz)).1, rz.points ≠ []) ∧
      (ps.foldl (group_step d) (zs, cz)).2.points ≠ [] := by
  induction ps with
  | nil =>
    intro zs cz h1 h2
    exact ⟨h1, h2⟩
  | cons r rest ih =>
    intro zs cz h1 h2
    rw [List.foldl_cons]
    by_cases hc : |r.price - zone_avg_price cz.points| ≤ d ∧ r.ptype = cz.ptype
    · rw [group_step_merge d zs cz r hc]
      exact ih zs ⟨cz.points ++ [r], cz.ptype⟩ h1 (by simp)
    · rw [group_step_close d zs cz r hc]
      refine ih (zs ++ [cz]) ⟨[r], r.ptype⟩ ?_ (by simp)
      intro rz hrz
      rcases List.mem_append.mp hrz with h | h
      · exact h1 rz h
      · rw [List.mem_singleton] at h
        subst h
        exact h2

theorem mem_group_price_zones (pts : List SwingPoint) (d : Rat) (z : Zone)
    (hz : z ∈ group_price_zones pts d) :
    ∃ rz : RawZone, rz.points ≠ [] ∧ z = zone_stats rz := by
  unfold group_price_zones at hz
  cases hs : sort_by_price pts with
  | nil =>
    rw [hs] at hz
    simp at hz
  | cons p0 rest =>
    rw [hs] at hz
    have hz2 : z ∈
        (((rest.foldl (group_step d) ([], ⟨[p0], p0.ptype⟩)).1 ++
          [(rest.foldl (group_step d) ([], ⟨[p0], p0.ptype⟩)).2]).map zone_stats) := hz
    obtain ⟨rz, hrzmem, rfl⟩ := List.mem_map.mp hz2
    have hne := group_fold_nonempty d rest [] ⟨[p0], p0.ptype⟩ (by simp) (by simp)
    rcases List.mem_append.mp hrzmem with h | h
    · exact ⟨rz, hne.1 rz h, rfl⟩
    · rw [List.mem_singleton] at h
      subst h
      exact ⟨_, hne.2, rfl⟩

/-- C3: every zone of the aggregator has strength in [1,3]; the strength is
min(reactionCount, 3) plus exactly one bonus point iff the mean wick ratio
of its reactions is at least 2.0 and the pre-bonus value is strictly below
3, so the bonus is never applied at the cap. -/
theorem c3_strength_formula (pts : List SwingPoint) (d : Rat) (z : Zone)
    (hz : z ∈ group_price_zones pts d) :
    1 ≤ z.strength ∧ z.strength ≤ 3 ∧
    z.strength =
      (if 2 ≤ (z.reactions.map fun q => q.wick_ratio).sum / (z.reaction_count : Rat) ∧
          min z.reaction_count 3 < 3
        then min z.reaction_count 3 + 1
        else min z.reaction_count 3) := by
  obtain ⟨rz, hne, rfl⟩ := mem_group_price_zones pts d z hz
  have hlen : 0 < rz.points.length := List.length_pos.mpr hne
  have hstr : (zone_stats rz).strength =
      (if 2 ≤ (rz.points.map fun q => q.wick_ratio).sum / ((rz.points.length : Nat) : Rat) ∧
          min rz.points.length 3 < 3
        then min rz.points.length 3 + 1
        else min rz.points.length 3) := rfl
  have hcount : (zone_stats rz).reaction_count = rz.points.length := rfl
  have hreact : (zone_stats rz).reactions = sort_by_time_desc rz.points := rfl
  have hsum : ((sort_by_time_desc rz.points).map fun q => q.wick_ratio).sum =
      (rz.points.map fun q => q.wick_ratio).sum :=
    ((sort_le_perm _ rz.points).map _).sum_eq
  refine ⟨?_, ?_, ?_⟩
  · rw [hstr]
    split_ifs with h
    · omega
    · omega
  · rw [hstr]
    split_ifs with h
    · have := h.2
      omega
    · omega
  · rw [hstr, hreact, hcount, hsum]

/-- C3 witness: the formula on the one-zone run from a single point. -/
theorem c3_strength_formula_witness :
    1 ≤ (zone_stats ⟨[c2_p1], SPType.resistance⟩).strength ∧
    (zone_stats ⟨[c2_p1], SPType.resistance⟩).strength ≤ 3 ∧
    (zone_stats ⟨[c2_p1], SPType.resistance⟩).strength =
      (if 2 ≤ ((zone_stats ⟨[c2_p1], SPType.resistance⟩).reactions.map fun q =>
            q.wick_ratio).sum /
            ((zone_stats ⟨[c2_p1], SPType.resistance⟩).reaction_count : Rat) ∧
          min (zone_stats ⟨[c2_p1], SPType.resistance⟩).reaction_count 3 < 3
        then min (zone_stats ⟨[c2_p1], SPType.resistance⟩).reaction_count 3 + 1
        else min (zone_stats ⟨[c2_p1], SPType.resistance⟩).reaction_count 3) :=
  c3_strength_formula [c2_p1] ZONE_MERGE_PIPS
    (zone_stats ⟨[c2_p1], SPType.resistance⟩)
    (by simp [group_price_zones, sort_by_price, sort_le, insert_le, c2_p1])

/-- C10: the swing-high and swing-low tests are independent, so over three
identical candles the middle one yields both a resistance point and a
support point in the same run, with the same timestamp. -/
theorem c10_dual_swing_point :
    detect_swing_points [c10_candle, c10_candle, c10_candle] 1 =
      [high_point c10_candle, low_point c10_candle] ∧
    (high_point c10_candle).ptype = SPType.resistance ∧
    (low_point c10_candle).ptype = SPType.support ∧
    (high_point c10_candle).timestamp = (low_point c10_candle).timestamp := by
  refine ⟨?_, rfl, rfl, rfl⟩
  norm_num [detect_swing_points, swing_points_at, is_swing_high, is_swing_low,
    candle_at, c10_candle, List.range']

/-! The market-state classifier: claim C1. -/

theorem foldl_max_choice (rest : List Zone) (a : Zone) :
    (rest.foldl (fun best cur =>
      if best.zone_price < cur.zone_price then cur else best) a) = a ∨
    (rest.foldl (fun best cur =>
      if best.zone_price < cur.zone_price then cur else best) a) ∈ rest := by
  induction rest generalizing a with
  | nil => exact Or.inl rfl
  | cons b bs ih =>
    rw [List.foldl_cons]
    rcases ih (if a.zone_price < b.zone_price then b else a) with h | h
    · rw [h]
      by_cases hab : a.zone_price < b.zone_price
      · rw [if_pos hab]
        exact Or.inr (List.mem_cons_self _ _)
      · rw [if_neg hab]
        exact Or.inl rfl
    · exact Or.inr (List.mem_cons_of_mem _ h)

theorem foldl_max_ge (rest : List Zone) (a : Zone) :
    a.zone_price ≤ (rest.foldl (fun best cur =>
      if best.zone_price < cur.zone_price then cur else best) a).zone_price ∧
    ∀ y ∈ rest, y.zone_price ≤ (rest.foldl (fun best cur =>
      if best.zone_price < cur.zone_price then cur else best) a).zone_price := by
  induction rest generalizing a with
  | nil => exact ⟨le_refl _, by simp⟩
  | cons b bs ih =>
    rw [List.foldl_cons]
    obtain ⟨ih1, ih2⟩ := ih (if a.zone_price < b.zone_price then b else a)
    have ha : a.zone_price ≤ (if a.zone_price < b.zone_price then b else a).zone_price := by
      by_cases hab : a.zone_price < b.zone_price
      · rw [if_pos hab]
        exact le_of_lt hab
      · rw [if_neg hab]
    have hb : b.zone_price ≤ (if a.zone_price < b.zone_price then b else a).zone_price := by
      by_cases hab : a.zone_price < b.zone_price
      · rw [if_pos hab]
      · rw [if_neg hab]
        exact le_of_not_lt hab
    refine ⟨ha.trans ih1, ?_⟩
    intro y hy
    rcases List.mem_cons.mp hy with rfl | hy
    · exact hb.trans ih1
    · exact ih2 y hy

theorem max_by_zone_price_spec (zs : List Zone) (z : Zone)
    (h : max_by_zone_price zs = some z) :
    z ∈ zs ∧ ∀ y ∈ zs, y.zone_price ≤ z.zone_price := by
  cases zs with
  | nil => simp [max_by_zone_price] at h
  | cons a rest =>
    simp only [max_by_zone_price, Option.some.injEq] at h
    subst h
    constructor
    · rcases foldl_max_choice rest a with h | h
      · rw [h]
        exact List.mem_cons_self _ _
      · exact List.mem_cons_of_mem _ h
    · intro y hy
      rcases List.mem_cons.mp hy with rfl | hy
      · exact (foldl_max_ge rest y).1
      · exact (foldl_max_ge rest a).2 y hy

theorem mem_broken_res (zones : List Zone) (cp m : Rat) (z : Zone) :
    z ∈ broken_res zones cp m ↔
      z ∈ zones ∧ z.ptype = SPType.resistance ∧ z.zone_price + m < cp := by
  unfold broken_res all_res
  simp only [List.mem_filter, beq_iff_eq, decide_eq_true_eq, and_assoc]

theorem classify_breakout_up_of (zones : List Zone) (cp th m : Rat) (z : Zone)
    (h : max_by_zone_price (broken_res zones cp m) = some z) :
    classify_market zones cp th m = Classification.breakout_up z := by
  unfold classify_market
  rw [h]

/-- C1 (amended): if some resistance zone is broken by strictly more than
the breakout margin (zone_price + margin < current_price, as the source
tests with a strict comparison), the classifier returns breakout-up for a
broken resistance zone of maximal zone_price, never a range or approach
classification. -/
theorem c1_breakout_up_priority (zones : List Zone)
    (current_price threshold margin : Rat)
    (h : ∃ z ∈ zones, z.ptype = SPType.resistance ∧
      z.zone_price + margin < current_price) :
    ∃ z ∈ zones, z.ptype = SPType.resistance ∧
      z.zone_price + margin < current_price ∧
      classify_market zones current_price threshold margin =
        Classification.breakout_up z ∧
      ∀ y ∈ zones, y.ptype = SPType.resistance →
        y.zone_price + margin < current_price → y.zone_price ≤ z.zone_price := by
  obtain ⟨z0, hz0, hz0r, hz0b⟩ := h
  have hmem0 : z0 ∈ broken_res zones current_price margin :=
    (mem_broken_res zones current_price margin z0).mpr ⟨hz0, hz0r, hz0b⟩
  cases hbr : broken_res zones current_price margin with
  | nil =>
    rw [hbr] at hmem0
    simp at hmem0
  | cons a rest =>
    have hmax : max_by_zone_price (broken_res zones current_price margin) =
        some (rest.foldl (fun best cur =>
          if best.zone_price < cur.zone_price then cur else best) a) := by
      rw [hbr]
      rfl
    obtain ⟨hzmem, hzmax⟩ := max_by_zone_price_spec _ _ hmax
    have hprops := (mem_broken_res zones current_price margin _).mp hzmem
    refine ⟨_, hprops.1, hprops.2.1, hprops.2.2,
      classify_breakout_up_of zones current_price threshold margin _ hmax, ?_⟩
    intro y hy hyr hyb
    exact hzmax y ((mem_broken_res zones current_price margin y).mpr ⟨hy, hyr, hyb⟩)

/-- C1 witness: at price 150.30 both resistance zones are broken by more
than the margin and the classifier picks the higher one. -/
theorem c1_breakout_up_priority_witness :
    ∃ z ∈ [c1_zone, c1_high_zone, c1_sup_zone],
      z.ptype = SPType.resistance ∧
      z.zone_price + BREAKOUT_MARGIN < 1503/10 ∧
      classify_market [c1_zone, c1_high_zone, c1_sup_zone] (1503/10)
        THRESHOLD BREAKOUT_MARGIN = Classification.breakout_up z ∧
      ∀ y ∈ [c1_zone, c1_high_zone, c1_sup_zone], y.ptype = SPType.resistance →
        y.zone_price + BREAKOUT_MARGIN < 1503/10 →
        y.zone_price ≤ z.zone_price :=
  c1_breakout_up_priority [c1_zone, c1_high_zone, c1_sup_zone] (1503/10)
    THRESHOLD BREAKOUT_MARGIN
    ⟨c1_zone, by simp, rfl, by norm_num [c1_zone, BREAKOUT_MARGIN]⟩

/-- C1 counterexample to the claim as stated: a resistance zone broken by
exactly the breakout margin (zone_price + margin = current_price, so
zone_price + margin <= current_price holds) is not classified breakout-up;
the source requires a strict break, and the run at price 150.05 with the
zone at 150.00 and margin 0.05 is classified approach-resistance instead. -/
theorem c1_breakout_boundary_cex :
    c1_zone.ptype = SPType.resistance ∧
    c1_zone.zone_price + BREAKOUT_MARGIN ≤ 3001/20 ∧
    classify_market [c1_zone] (3001/20) THRESHOLD BREAKOUT_MARGIN =
      Classification.approach_resistance c1_zone := by
  refine ⟨rfl, by norm_num [c1_zone, BREAKOUT_MARGIN], ?_⟩
  norm_num [classify_market, broken_res, broken_sup, all_res, all_sup,
    nearby_res, nearby_sup, res_zones_near, sup_zones_near, sort_le, insert_le,
    max_by_zone_price, min_by_zone_price, c1_zone, THRESHOLD, BREAKOUT_MARGIN,
    abs_of_nonpos, abs_of_nonneg]

end FxBot
